import Mathlib

/-!
Verification of `vznncv-mbed-greentea` examples.

Part 1: the blinky demo (`src/examples/bluepill_demo/blinky_main.cpp`).
The program is embedded as a small-step transition system over an explicit
state; each step emits the observable events (pin writes, sleeps, prints)
performed by the corresponding source statements.

Part 2: the greentea test shim
(`src/examples/bluepill_demo/TESTS/base/demo/main.cpp`).
-/

/-- Observable events of the blinky program: a write of a logical level to
the output pin, a thread sleep of a given number of milliseconds, and a
printed string. -/
inductive BlinkEvent where
  | setPin (level : Bool)
  | sleep (ms : Nat)
  | print (s : String)
deriving DecidableEq

/-- Source constant `minor_blink_number = 4 * 2` of `blinky_main.cpp`. -/
def minor_blink_number : Nat := 4 * 2

/-- Source constant `minor_blink_delay = 50ms` of `blinky_main.cpp` (in ms). -/
def minor_blink_delay : Nat := 50

/-- Source constant `major_blink_delay = 1000ms` of `blinky_main.cpp` (in ms). -/
def major_blink_delay : Nat := 1000

/-- Program positions of the blinky `main`: `loop` is the head of the `for`
loop inside `while (true)` (the inner index `i` distinguishes the inner
iterations), `done` is the (unreachable) return from `main`. -/
inductive BlinkPC where
  | loop
  | done
deriving DecidableEq

/-- State of the blinky `main`: program position, current pin level `led`,
the printed `counter`, and the inner loop index `i`. -/
structure BlinkState where
  pc : BlinkPC
  led : Bool
  counter : Nat
  i : Nat
deriving DecidableEq

/-- Initial state of `blinky_main.cpp`: `DigitalOut led(PROJECT_LED, 1)`
sets the pin to 1 (`true`), `counter = 0`, and control is at the loop head. -/
def blinkInit : BlinkState := ⟨BlinkPC.loop, true, 0, 0⟩

/-- Events emitted before the loop is entered: the `DigitalOut` constructor
writes level 1 to the pin, then `printf("<start>\n")`. -/
def blinkInitEvents : List BlinkEvent :=
  [BlinkEvent.setPin true, BlinkEvent.print "<start>\n"]

/-- One step of the blinky `main`. At the loop head with `i <
minor_blink_number` the body `led = !led; ThisThread::sleep_for(50ms)` runs
and `i` is incremented; once the inner loop is exhausted,
`printf("Blinky count: %i\n", counter); counter++;
ThisThread::sleep_for(1000ms)` runs and control returns to the inner loop
with `i = 0`. There is no transition out of the `while (true)` loop. -/
def blinkStep : BlinkState → BlinkState × List BlinkEvent
  | ⟨BlinkPC.loop, led, c, i⟩ =>
      if i < minor_blink_number then
        (⟨BlinkPC.loop, !led, c, i + 1⟩,
         [BlinkEvent.setPin (!led), BlinkEvent.sleep minor_blink_delay])
      else
        (⟨BlinkPC.loop, led, c + 1, 0⟩,
         [BlinkEvent.print ("Blinky count: " ++ toString c ++ "\n"),
          BlinkEvent.sleep major_blink_delay])
  | ⟨BlinkPC.done, led, c, i⟩ => (⟨BlinkPC.done, led, c, i⟩, [])

/-- Run `n` steps from a state, collecting the emitted events in order. -/
def blinkRunFrom : BlinkState → Nat → BlinkState × List BlinkEvent
  | s, 0 => (s, [])
  | s, n + 1 =>
      let p := blinkStep s
      let q := blinkRunFrom p.1 n
      (q.1, p.2 ++ q.2)

/-- The state of the blinky program after `n` steps from launch. -/
def blinkIter (n : Nat) : BlinkState := (blinkRunFrom blinkInit n).1

/-- The full event trace of the blinky program after `n` steps from launch
(including the pre-loop events). -/
def blinkTrace (n : Nat) : List BlinkEvent :=
  blinkInitEvents ++ (blinkRunFrom blinkInit n).2

/-- The events of one outer cycle starting with pin level `led` and counter
`c`: the eight toggle/sleep pairs of the inner loop, then the counter print
and the long sleep. -/
def cycleEvents (led : Bool) (c : Nat) : List BlinkEvent :=
  [BlinkEvent.setPin (!led), BlinkEvent.sleep minor_blink_delay,
   BlinkEvent.setPin led, BlinkEvent.sleep minor_blink_delay,
   BlinkEvent.setPin (!led), BlinkEvent.sleep minor_blink_delay,
   BlinkEvent.setPin led, BlinkEvent.sleep minor_blink_delay,
   BlinkEvent.setPin (!led), BlinkEvent.sleep minor_blink_delay,
   BlinkEvent.setPin led, BlinkEvent.sleep minor_blink_delay,
   BlinkEvent.setPin (!led), BlinkEvent.sleep minor_blink_delay,
   BlinkEvent.setPin led, BlinkEvent.sleep minor_blink_delay,
   BlinkEvent.print ("Blinky count: " ++ toString c ++ "\n"),
   BlinkEvent.sleep major_blink_delay]

/-- Recognizer for pin-write (toggle) events. -/
def isToggle : BlinkEvent → Bool
  | BlinkEvent.setPin _ => true
  | _ => false

/-- Extract the printed string of a print event, if any. -/
def printLine : BlinkEvent → Option String
  | BlinkEvent.print s => some s
  | _ => none

/-- The stream of printed lines after `n` steps of the blinky program. -/
def blinkOutput (n : Nat) : List String := (blinkTrace n).filterMap printLine

theorem blinkRunFrom_add (s : BlinkState) (m n : Nat) :
    blinkRunFrom s (m + n)
      = ((blinkRunFrom (blinkRunFrom s m).1 n).1,
         (blinkRunFrom s m).2 ++ (blinkRunFrom (blinkRunFrom s m).1 n).2) := by
  induction m generalizing s with
  | zero => simp [blinkRunFrom]
  | succ m ih =>
      have h : m + 1 + n = (m + n) + 1 := by omega
      rw [h]
      simp [blinkRunFrom, ih, List.append_assoc]

theorem blink_cycle (led : Bool) (c : Nat) :
    blinkRunFrom ⟨BlinkPC.loop, led, c, 0⟩ 9
      = (⟨BlinkPC.loop, led, c + 1, 0⟩, cycleEvents led c) := by
  cases led <;> rfl

theorem blinkIter_cycle_start (k : Nat) :
    blinkIter (9 * k) = ⟨BlinkPC.loop, true, k, 0⟩ := by
  induction k with
  | zero => rfl
  | succ k ih =>
      have h9 : 9 * (k + 1) = 9 * k + 9 := by ring
      unfold blinkIter at ih ⊢
      rw [h9, blinkRunFrom_add, ih, blink_cycle]

theorem blinkStep_pc_loop (s : BlinkState) (h : s.pc = BlinkPC.loop) :
    ((blinkStep s).1).pc = BlinkPC.loop := by
  obtain ⟨pc, led, c, i⟩ := s
  cases pc with
  | loop =>
      simp only [blinkStep]
      split <;> rfl
  | done => cases h

theorem blinkRunFrom_pc_loop (n : Nat) (s : BlinkState)
    (h : s.pc = BlinkPC.loop) : ((blinkRunFrom s n).1).pc = BlinkPC.loop := by
  induction n generalizing s with
  | zero => simpa [blinkRunFrom] using h
  | succ n ih =>
      show ((blinkRunFrom (blinkStep s).1 n).1).pc = BlinkPC.loop
      exact ih _ (blinkStep_pc_loop s h)

theorem blinkRun_printed (k : Nat) :
    ((blinkRunFrom blinkInit (9 * k)).2).filterMap printLine
      = (List.range k).map (fun n => "Blinky count: " ++ toString n ++ "\n") := by
  induction k with
  | zero => rfl
  | succ k ih =>
      have h9 : 9 * (k + 1) = 9 * k + 9 := by ring
      have hs := blinkIter_cycle_start k
      unfold blinkIter at hs
      rw [h9, blinkRunFrom_add, hs, blink_cycle]
      simp [List.filterMap_append, ih, List.range_succ, cycleEvents, printLine]

/-- C3: for every outer cycle of the blink loop, the pin is toggled exactly
`minor_blink_number = 8` times between two consecutive counter prints, each
toggle immediately followed by a 50 ms sleep, and the counter print is
followed by a 1000 ms sleep before the next outer iteration: the `k`-th
cycle starts at step `9 * k` and its events are exactly the eight
toggle/sleep-50 pairs, then the print of counter `k`, then the 1000 ms
sleep. -/
theorem blink_cycle_toggle_structure (k : Nat) :
    blinkIter (9 * k) = ⟨BlinkPC.loop, true, k, 0⟩
    ∧ (blinkRunFrom (blinkIter (9 * k)) 9).2
        = [BlinkEvent.setPin false, BlinkEvent.sleep 50,
           BlinkEvent.setPin true, BlinkEvent.sleep 50,
           BlinkEvent.setPin false, BlinkEvent.sleep 50,
           BlinkEvent.setPin true, BlinkEvent.sleep 50,
           BlinkEvent.setPin false, BlinkEvent.sleep 50,
           BlinkEvent.setPin true, BlinkEvent.sleep 50,
           BlinkEvent.setPin false, BlinkEvent.sleep 50,
           BlinkEvent.setPin true, BlinkEvent.sleep 50,
           BlinkEvent.print ("Blinky count: " ++ toString k ++ "\n"),
           BlinkEvent.sleep 1000]
    ∧ ((blinkRunFrom (blinkIter (9 * k)) 9).2).countP isToggle
        = minor_blink_number := by
  have h := blinkIter_cycle_start k
  refine ⟨h, ?_, ?_⟩
  · rw [h, blink_cycle]
    rfl
  · rw [h, blink_cycle]
    rfl

/-- C6: the printed stream of the blink loop is exactly `"<start>\n"` once
at launch followed by one line `"Blinky count: %i\n"` per outer cycle with
the counter substituted; the counter starts at 0, the `n`-th printed value
equals `n`, and it increases by exactly 1 each cycle and never resets. -/
theorem blink_output_stream (k : Nat) :
    blinkOutput (9 * k)
      = "<start>\n"
          :: (List.range k).map (fun n => "Blinky count: " ++ toString n ++ "\n") := by
  unfold blinkOutput blinkTrace
  rw [List.filterMap_append, blinkRun_printed k]
  rfl

/-- C8: the blink loop never terminates: after any number of execution
steps the program counter is still at the loop head and never reaches the
return point of `main`. -/
theorem blink_never_terminates (n : Nat) :
    (blinkIter n).pc = BlinkPC.loop ∧ (blinkIter n).pc ≠ BlinkPC.done := by
  have h : (blinkIter n).pc = BlinkPC.loop :=
    blinkRunFrom_pc_loop n blinkInit rfl
  refine ⟨h, ?_⟩
  rw [h]
  decide

/-- C9: the pin is initialized to level 1 at program start, and since each
inner burst performs an even number of toggles (`4 * 2 = 8`), the pin level
equals 1 at every counter print (the state from which the print step runs)
and at the start of every outer iteration. -/
theorem blink_pin_level_invariant (k : Nat) :
    blinkInit.led = true
    ∧ blinkInitEvents.head? = some (BlinkEvent.setPin true)
    ∧ (blinkIter (9 * k)).led = true
    ∧ blinkIter (9 * k + 8) = ⟨BlinkPC.loop, true, k, 8⟩
    ∧ (blinkStep (blinkIter (9 * k + 8))).2
        = [BlinkEvent.print ("Blinky count: " ++ toString k ++ "\n"),
           BlinkEvent.sleep major_blink_delay] := by
  have h := blinkIter_cycle_start k
  have h8 : blinkIter (9 * k + 8) = ⟨BlinkPC.loop, true, k, 8⟩ := by
    unfold blinkIter at h ⊢
    rw [blinkRunFrom_add blinkInit (9 * k) 8, h]
    rfl
  refine ⟨rfl, rfl, ?_, h8, ?_⟩
  · rw [h]
  · rw [h8]
    rfl

/-! ### Part 2: the greentea test shim (`TESTS/base/demo/main.cpp`)

The shim registers two trivial cases with the external `utest` framework
and hands control to `Harness::run`. The shim's own code (handlers, case
table, `main`) is embedded from the source; the external framework
(`utest` harness, `greentea` default handlers, Unity assertions) is not
part of this repository and is modelled from the spec. -/

/-- Modelled from the spec: the status code (`utest::v1::status_t`)
returned by setup and teardown handlers of the external utest framework. -/
inductive status_t where
  | continue_
  | ignore
  | abort
deriving DecidableEq

/-- Modelled from the spec: the failure detail (`utest::v1::failure_t`)
delivered to teardown handlers by the external utest framework; this model
only tracks whether an assertion mismatch occurred. -/
inductive failure_t where
  | noFailure
  | assertionFailure
deriving DecidableEq

/-- Modelled from the spec: the per-case failure policy of the external
utest framework. `continueAll` is the policy installed by
`greentea_case_failure_continue_handler` (a failing case does not abort the
remaining cases); `abortSuite` is the alternative policy that stops the
suite after a failing case. -/
inductive FailurePolicy where
  | continueAll
  | abortSuite
deriving DecidableEq

/-- Modelled from the spec: the Unity equality assertion
`TEST_ASSERT_EQUAL(expected, actual)` (external); a case body built from it
passes iff the two values are equal. -/
def TEST_ASSERT_EQUAL (expected actual : Int) : Bool := expected == actual

/-- Body of `test_success_1`: `TEST_ASSERT_EQUAL(0, 0)`; `true` iff its
assertion passes. -/
def test_success_1 : Bool := TEST_ASSERT_EQUAL 0 0

/-- Body of `test_success_2`: `TEST_ASSERT_EQUAL(1, 1)`; `true` iff its
assertion passes. -/
def test_success_2 : Bool := TEST_ASSERT_EQUAL 1 1

/-- Modelled from the spec: the default greentea suite-setup handler
(external); it forwards the case count to the host and lets the suite
continue. -/
def greentea_test_setup_handler (number_of_cases : Nat) : status_t :=
  status_t.continue_

/-- Modelled from the spec: the default greentea per-case setup handler
(external); the `Case *source` pointer argument of the C++ signature is
dropped in this pure model, only the case index is kept. -/
def greentea_case_setup_handler (index_of_case : Nat) : status_t :=
  status_t.continue_

/-- Modelled from the spec: the default greentea per-case teardown handler
(external); it forwards the per-case pass/fail counts and the failure
detail to the host. -/
def greentea_case_teardown_handler (passed failed : Nat)
    (failure : failure_t) : status_t :=
  status_t.continue_

/-- Modelled from the spec: the default greentea suite-teardown handler
(external); it forwards the aggregate result to the host and returns
nothing. -/
def greentea_test_teardown_handler (passed failed : Nat)
    (failure : failure_t) : Unit := ()

/-- `app_test_setup_handler` of the shim: delegates to
`greentea_test_setup_handler`. -/
def app_test_setup_handler (number_of_cases : Nat) : status_t :=
  greentea_test_setup_handler number_of_cases

/-- `app_case_setup_handler` of the shim: delegates to
`greentea_case_setup_handler`. -/
def app_case_setup_handler (index_of_case : Nat) : status_t :=
  greentea_case_setup_handler index_of_case

/-- `app_case_teardown_handler` of the shim: delegates to
`greentea_case_teardown_handler`. -/
def app_case_teardown_handler (passed failed : Nat)
    (failure : failure_t) : status_t :=
  greentea_case_teardown_handler passed failed failure

/-- `app_test_teardown_handler` of the shim: delegates to
`greentea_test_teardown_handler`. -/
def app_test_teardown_handler (passed failed : Nat)
    (failure : failure_t) : Unit :=
  greentea_test_teardown_handler passed failed failure

/-- Modelled from the spec: a utest `Case` record: name, case-setup
callback, case body (represented by its outcome: `true` iff its assertions
pass), case-teardown callback and failure policy. -/
structure Case where
  name : String
  setup : Nat → status_t
  body : Bool
  teardown : Nat → Nat → failure_t → status_t
  policy : FailurePolicy

/-- The `SimpleCase(test_fun)` macro of the shim: a `Case` whose name is
the function name, with the app case setup/teardown handlers and the
continue-on-failure policy (`greentea_case_failure_continue_handler`). -/
def SimpleCase (name : String) (test_fun : Bool) : Case :=
  { name := name, setup := app_case_setup_handler, body := test_fun,
    teardown := app_case_teardown_handler,
    policy := FailurePolicy.continueAll }

/-- The `cases` array of the shim, in declaration order. -/
def cases : List Case :=
  [SimpleCase "test_success_1" test_success_1,
   SimpleCase "test_success_2" test_success_2]

/-- Modelled from the spec: a utest `Specification`: suite-setup callback,
ordered case list, suite-teardown callback. -/
structure Specification where
  test_setup : Nat → status_t
  cases : List Case
  test_teardown : Nat → Nat → failure_t → Unit

/-- The `specification` object of the shim. -/
def specification : Specification :=
  { test_setup := app_test_setup_handler, cases := cases,
    test_teardown := app_test_teardown_handler }

/-- Observable events of a suite run: suite setup (with the case count and
the status returned by the suite-setup handler), per-case setup, body and
teardown (with per-case counts and the teardown handler's status), and the
final suite teardown carrying the aggregate counts. -/
inductive SuiteEvent where
  | suiteSetup (numCases : Nat) (st : status_t)
  | caseSetup (idx : Nat) (name : String) (st : status_t)
  | caseBody (idx : Nat) (name : String) (passed : Bool)
  | caseTeardown (idx : Nat) (name : String) (passed failed : Nat)
      (st : status_t)
  | suiteTeardown (passed failed : Nat)
deriving DecidableEq

/-- The failure detail handed to teardown handlers for a case outcome. -/
def failureOf (passed : Bool) : failure_t :=
  if passed then failure_t.noFailure else failure_t.assertionFailure

/-- Modelled from the spec: the case-execution loop of the external utest
harness. Each case runs its setup, then its body, then its teardown —
always, regardless of the body's outcome — and the aggregate passed/failed
counters are updated. With the continue policy the remaining cases still
run after a failure; with the abort policy the suite stops after the
failing case's teardown. `idx` is the index of the first case and `p`, `f`
the aggregate counts so far. -/
def runCases : List Case → Nat → Nat → Nat → List SuiteEvent × Nat × Nat
  | [], _, p, f => ([], p, f)
  | c :: rest, idx, p, f =>
      let ok := c.body
      let cp := if ok then 1 else 0
      let cf := if ok then 0 else 1
      let evs := [SuiteEvent.caseSetup idx c.name (c.setup idx),
                  SuiteEvent.caseBody idx c.name ok,
                  SuiteEvent.caseTeardown idx c.name cp cf
                    (c.teardown cp cf (failureOf ok))]
      if c.policy = FailurePolicy.abortSuite ∧ ok = false then
        (evs, p + cp, f + cf)
      else
        let r := runCases rest (idx + 1) (p + cp) (f + cf)
        (evs ++ r.1, r.2)

/-- Modelled from the spec: `Harness::run` of the external utest framework
on a specification: suite setup, the cases in declaration order, then the
suite teardown with the aggregate counts (delivered to the suite-teardown
callback, which returns nothing observable in this pure model). The first
component is the suite event trace, the second the aggregate
passed/failed counts. -/
def runSuite (s : Specification) : List SuiteEvent × Nat × Nat :=
  let r := runCases s.cases 0 0 0
  (SuiteEvent.suiteSetup s.cases.length (s.test_setup s.cases.length)
     :: r.1 ++ [SuiteEvent.suiteTeardown r.2.1 r.2.2], r.2)

/-- Aggregate passed-case count of a suite run. -/
def suitePassed (s : Specification) : Nat := (runSuite s).2.1

/-- Aggregate failed-case count of a suite run. -/
def suiteFailed (s : Specification) : Nat := (runSuite s).2.2

/-- Modelled from the spec: the boolean result of `Harness::run`: whether
all cases passed, i.e. whether the failed count is 0. -/
def Harness.run (s : Specification) : Bool := suiteFailed s == 0

/-- Actions performed by the shim `main`: the `GREENTEA_SETUP(timeout,
profile)` host handshake and the invocation of the harness run primitive. -/
inductive ShimAction where
  | greenteaSetup (timeout : Nat) (profile : String)
  | harnessRun
deriving DecidableEq

/-- `main` of the shim: performs the host handshake
`GREENTEA_SETUP(40, "default_auto")`, then returns
`!Harness::run(specification)` (0 when all cases passed, 1 otherwise).
The first component is the ordered sequence of performed actions, the
second the exit status. -/
def shim_main : List ShimAction × Nat :=
  ([ShimAction.greenteaSetup 40 "default_auto", ShimAction.harnessRun],
   if Harness.run specification then 0 else 1)

/-- The exit status `!Harness::run(s)` of the shim `main`, as a function of
the specification being run. -/
def shimExit (s : Specification) : Nat := if Harness.run s then 0 else 1

/-- The per-case event trace in declaration order: for each case, its
setup immediately followed by its body immediately followed by its
teardown, with no case skipped or repeated. -/
def declaredTrace : Nat → List Case → List SuiteEvent
  | _, [] => []
  | idx, c :: rest =>
      SuiteEvent.caseSetup idx c.name (c.setup idx)
        :: SuiteEvent.caseBody idx c.name c.body
        :: SuiteEvent.caseTeardown idx c.name (if c.body then 1 else 0)
            (if c.body then 0 else 1)
            (c.teardown (if c.body then 1 else 0) (if c.body then 0 else 1)
              (failureOf c.body))
        :: declaredTrace (idx + 1) rest

/-- The number of cases in a list whose bodies fail their assertions. -/
def failCount (cs : List Case) : Nat := cs.countP (fun c => !c.body)

/-- The number of cases in a list whose bodies pass their assertions. -/
def passCount (cs : List Case) : Nat := cs.countP (fun c => c.body)

/-- A case list with failing bodies, used to exercise the
continue-on-failure policy of the harness model. -/
def demo_failing_cases : List Case :=
  [SimpleCase "fail_1" (TEST_ASSERT_EQUAL 0 1),
   SimpleCase "ok_1" (TEST_ASSERT_EQUAL 2 2),
   SimpleCase "fail_2" (TEST_ASSERT_EQUAL 3 4)]

theorem runCases_continue_trace (cs : List Case) (idx p f : Nat)
    (h : ∀ c ∈ cs, c.policy = FailurePolicy.continueAll) :
    (runCases cs idx p f).1 = declaredTrace idx cs := by
  induction cs generalizing idx p f with
  | nil => rfl
  | cons c rest ih =>
      have hc : c.policy = FailurePolicy.continueAll :=
        h c (List.mem_cons_self c rest)
      have hrest : ∀ x ∈ rest, x.policy = FailurePolicy.continueAll :=
        fun x hx => h x (List.mem_cons_of_mem c hx)
      have hnot : ¬(c.policy = FailurePolicy.abortSuite ∧ c.body = false) := by
        rintro ⟨ha, -⟩
        rw [hc] at ha
        cases ha
      simp only [runCases, declaredTrace]
      rw [if_neg hnot]
      simp [ih _ _ _ hrest]

theorem runCases_continue_counts (cs : List Case) (idx p f : Nat)
    (h : ∀ c ∈ cs, c.policy = FailurePolicy.continueAll) :
    (runCases cs idx p f).2.1 = p + passCount cs
    ∧ (runCases cs idx p f).2.2 = f + failCount cs := by
  induction cs generalizing idx p f with
  | nil => simp [runCases, passCount, failCount]
  | cons c rest ih =>
      have hrest : ∀ x ∈ rest, x.policy = FailurePolicy.continueAll :=
        fun x hx => h x (List.mem_cons_of_mem c hx)
      have hnot : ¬(c.policy = FailurePolicy.abortSuite ∧ c.body = false) := by
        rintro ⟨ha, -⟩
        rw [h c (List.mem_cons_self c rest)] at ha
        cases ha
      simp only [runCases]
      rw [if_neg hnot]
      obtain ⟨ih1, ih2⟩ := ih (idx + 1) (p + if c.body then 1 else 0)
        (f + if c.body then 0 else 1) hrest
      constructor
      · rw [ih1]
        cases hb : c.body <;> simp [passCount, hb, List.countP_cons] <;> omega
      · rw [ih2]
        cases hb : c.body <;> simp [failCount, hb, List.countP_cons] <;> omega

/-- C1: for every specification, the shim exit status `!Harness::run(s)`
is 0 if and only if the failed-case count of the suite run is 0 (the exit
status is the logical negation of all-cases-passed), and the exit status of
the shim `main` is exactly this value at the shim's own specification. -/
theorem shim_exit_zero_iff_no_failures (s : Specification) :
    (shimExit s = 0 ↔ suiteFailed s = 0)
    ∧ shim_main.2 = shimExit specification := by
  constructor
  · simp only [shimExit, Harness.run]
    by_cases h : suiteFailed s = 0 <;> simp [h]
  · rfl

/-- C2: running the suite on the fixed specification with the two cases
`test_success_1` and `test_success_2` (whose bodies assert `0 == 0` and
`1 == 1`) yields the aggregate outcome 2 passed, 0 failed, delivered at the
suite teardown. -/
theorem suite_outcome_two_passed_zero_failed :
    test_success_1 = true
    ∧ test_success_2 = true
    ∧ suitePassed specification = 2
    ∧ suiteFailed specification = 0
    ∧ (runSuite specification).1.getLast?
        = some (SuiteEvent.suiteTeardown 2 0) := by
  refine ⟨rfl, rfl, rfl, rfl, rfl⟩

/-- C4: in any suite run whose cases all carry the continue policy (as all
of the shim's cases do), the cases execute in declaration order with none
skipped or retried, each case's setup immediately before its body and its
teardown immediately after, regardless of the body's outcome; concretely,
the shim's specification produces the trace in which `test_success_1`
completes setup, body and teardown before `test_success_2` begins. -/
theorem suite_cases_run_in_declaration_order (cs : List Case) (idx p f : Nat)
    (h : ∀ c ∈ cs, c.policy = FailurePolicy.continueAll) :
    (runCases cs idx p f).1 = declaredTrace idx cs
    ∧ (runSuite specification).1
        = [SuiteEvent.suiteSetup 2 status_t.continue_,
           SuiteEvent.caseSetup 0 "test_success_1" status_t.continue_,
           SuiteEvent.caseBody 0 "test_success_1" true,
           SuiteEvent.caseTeardown 0 "test_success_1" 1 0 status_t.continue_,
           SuiteEvent.caseSetup 1 "test_success_2" status_t.continue_,
           SuiteEvent.caseBody 1 "test_success_2" true,
           SuiteEvent.caseTeardown 1 "test_success_2" 1 0 status_t.continue_,
           SuiteEvent.suiteTeardown 2 0] :=
  ⟨runCases_continue_trace cs idx p f h, rfl⟩

/-- Witness for C4 at the shim's own case list. -/
theorem suite_cases_run_in_declaration_order_witness :
    (∀ c ∈ cases, c.policy = FailurePolicy.continueAll)
    ∧ (runCases cases 0 0 0).1 = declaredTrace 0 cases :=
  ⟨by decide,
   (suite_cases_run_in_declaration_order cases 0 0 0 (by decide)).1⟩

/-- C5: in any suite run whose cases all carry the continue-on-failure
policy, every case is executed even when some bodies fail their assertions
(the trace still lists every case in order), and the aggregate failed count
equals exactly the number of cases whose bodies failed (the passed count
likewise counting the passing bodies). -/
theorem suite_continue_on_failure (cs : List Case) (idx p f : Nat)
    (h : ∀ c ∈ cs, c.policy = FailurePolicy.continueAll) :
    (runCases cs idx p f).1 = declaredTrace idx cs
    ∧ (runCases cs idx p f).2.1 = p + passCount cs
    ∧ (runCases cs idx p f).2.2 = f + failCount cs :=
  ⟨runCases_continue_trace cs idx p f h, runCases_continue_counts cs idx p f h⟩

/-- Witness for C5 at a case list in which two of three bodies fail: all
three cases are executed and the failed count is exactly 2. -/
theorem suite_continue_on_failure_witness :
    (∀ c ∈ demo_failing_cases, c.policy = FailurePolicy.continueAll)
    ∧ failCount demo_failing_cases = 2
    ∧ ((runCases demo_failing_cases 0 0 0).1
          = declaredTrace 0 demo_failing_cases
       ∧ (runCases demo_failing_cases 0 0 0).2.1
          = 0 + passCount demo_failing_cases
       ∧ (runCases demo_failing_cases 0 0 0).2.2
          = 0 + failCount demo_failing_cases) :=
  ⟨by decide, by decide,
   suite_continue_on_failure demo_failing_cases 0 0 0 (by decide)⟩

/-- C7: the shim `main` performs the host handshake exactly once, before
invoking the run primitive, with the hardcoded timeout budget 40 and the
hardcoded profile string "default_auto"; `shim_main` is a closed constant,
so neither value is read from any external source. -/
theorem shim_handshake_once_before_run :
    shim_main.1
      = [ShimAction.greenteaSetup 40 "default_auto", ShimAction.harnessRun]
    ∧ shim_main.1.countP
        (fun a => match a with
          | ShimAction.greenteaSetup _ _ => true
          | _ => false) = 1 := by
  constructor <;> rfl

/-- C10: each of the four app-level callback hooks returns, for all
arguments, exactly the result of the default greentea handler it delegates
to. -/
theorem app_handlers_delegate_to_greentea :
    (∀ n, app_test_setup_handler n = greentea_test_setup_handler n)
    ∧ (∀ i, app_case_setup_handler i = greentea_case_setup_handler i)
    ∧ (∀ p f fl, app_case_teardown_handler p f fl
          = greentea_case_teardown_handler p f fl)
    ∧ (∀ p f fl, app_test_teardown_handler p f fl
          = greentea_test_teardown_handler p f fl) :=
  ⟨fun _ => rfl, fun _ => rfl, fun _ _ _ => rfl, fun _ _ _ => rfl⟩
